import Mathlib

/-!
# Sqrat class-type translators (`include/sqrat/sqratClassType.h`)

A shallow embedding of `StaticClassData::Cast` and of the `ClassType<C>` helpers
(`instance_cleanup_hook`, `getClassData`, `hasClassData`, `ClassName`, `PushInstance`,
`GetInstance`) together with the Squirrel stack primitives they call.

Conventions.
* A C pointer is a natural number, `0` is `NULL`.
* Code runs in `VM α`, a state transformer over `State` that may stop with a `Fault`
  (undefined behaviour, failed `assert`, or exhausted loop fuel).
* The Squirrel stack of the running native call is a list, top of stack first.
-/

namespace Sqrat

/-! ## Values of the embedded VM -/

abbrev SQUserPointer := Nat
abbrev SQInteger := Int
abbrev SQRESULT := Int

def SQ_OK : SQRESULT := 0
def SQ_ERROR : SQRESULT := -1
def SQ_SUCCEEDED (res : SQRESULT) : Bool := decide (0 ≤ res)
def SQ_FAILED (res : SQRESULT) : Bool := decide (res < 0)

inductive SQObjectType where
  | OT_NULL | OT_INTEGER | OT_BOOL | OT_STRING | OT_TABLE | OT_ARRAY
  | OT_USERDATA | OT_CLASS | OT_INSTANCE
  deriving DecidableEq, Repr

/-- A Squirrel class (`SQClass`): its type tag and its base class. The base of a class is fixed
when the class is created, so the chain of bases is finite; `id` identifies the class object. -/
inductive SQClass where
  | root (id : Nat) (typetag : SQUserPointer)
  | derived (id : Nat) (typetag : SQUserPointer) (base : SQClass)
  deriving DecidableEq, Repr

def SQClass.id : SQClass → Nat
  | .root i _ => i
  | .derived i _ _ => i

def SQClass._typetag : SQClass → SQUserPointer
  | .root _ t => t
  | .derived _ t _ => t

def SQClass._base : SQClass → Option SQClass
  | .root _ _ => none
  | .derived _ _ b => some b

/-- A value handle of the VM (`HSQOBJECT`); tables, arrays, userdata and instances are references
into the VM heap. -/
inductive HSQOBJECT where
  | null
  | integer (n : Int)
  | bool (b : Bool)
  | string (s : String)
  | table (ref : Nat)
  | array (ref : Nat)
  | userdata (ref : Nat)
  | klass (c : SQClass)
  | inst (ref : Nat)
  deriving DecidableEq, Repr

def HSQOBJECT._type : HSQOBJECT → SQObjectType
  | .null => .OT_NULL
  | .integer _ => .OT_INTEGER
  | .bool _ => .OT_BOOL
  | .string _ => .OT_STRING
  | .table _ => .OT_TABLE
  | .array _ => .OT_ARRAY
  | .userdata _ => .OT_USERDATA
  | .klass _ => .OT_CLASS
  | .inst _ => .OT_INSTANCE

/-- Release hooks that can be installed on a VM object: the only one this file installs. -/
inductive SQRELEASEHOOK where
  | instance_cleanup_hook
  deriving DecidableEq, Repr

structure SQInstance where
  _class : SQClass
  _userpointer : SQUserPointer
  _hook : Option SQRELEASEHOOK
  deriving DecidableEq, Repr

/-- A userdata block: `val` is the pointer-sized content of the block. -/
structure SQUserData where
  val : SQUserPointer
  _typetag : SQUserPointer
  _hook : Option SQRELEASEHOOK
  deriving DecidableEq, Repr

/-! ## Native data (lines 44-73 of the header) -/

/-- The struct `AbstractStaticClassData` together with the one thing `StaticClassData<C, B>` adds to it:
`upcast` is the conversion `static_cast<B*>(static_cast<C*>(ptr))` used by its `Cast`. -/
structure AbstractStaticClassData where
  baseClass : SQUserPointer
  className : String
  copyFunc : Nat
  upcast : SQUserPointer → SQUserPointer

/-- The `std::map<C*, HSQOBJECT>` of a `ClassData`. -/
abbrev InstanceMap := List (SQUserPointer × HSQOBJECT)

structure ClassData where
  classObj : HSQOBJECT
  getTable : HSQOBJECT
  setTable : HSQOBJECT
  instances : InstanceMap
  staticData : SQUserPointer
  deriving DecidableEq, Repr

/-- The `std::pair<C*, std::map<C*, HSQOBJECT>*>` attached to a proxy. The map pointer `second`
is represented by the address of the `ClassData` that contains the map. -/
structure InstancePair where
  first : SQUserPointer
  second : SQUserPointer
  deriving DecidableEq, Repr

/-! ## State -/

/-- A heap: live objects by address (or by reference). The first entry for a key is the object. -/
abbrev Heap (α : Type) := List (Nat × α)

def Heap.update {α : Type} : Heap α → Nat → α → Heap α
  | [], _, _ => []
  | (k', v') :: h, k, v => if k' = k then (k, v) :: h else (k', v') :: Heap.update h k v

def Heap.free {α : Type} (h : Heap α) (k : Nat) : Heap α :=
  h.filter (fun e => decide (e.1 ≠ k))

/-- The VM of one native call together with the native heap of the host program. -/
structure State where
  /-- the stack of the running call, top first -/
  _stack : List HSQOBJECT
  /-- the registry table of the VM -/
  _registry : HSQOBJECT
  tables : Heap (List (HSQOBJECT × HSQOBJECT))
  userdatas : Heap SQUserData
  instances : Heap SQInstance
  /-- reference of the next instance the VM creates; references are never reused -/
  nextInstance : Nat
  /-- release hooks installed on class objects, by class id -/
  classHooks : List (Nat × SQRELEASEHOOK)
  /-- raw member lookup of arrays, classes and instances (not otherwise used here) -/
  members : HSQOBJECT → HSQOBJECT → Option HSQOBJECT
  /-- live `AbstractStaticClassData` objects -/
  statics : Heap AbstractStaticClassData
  /-- live `ClassData<C>` objects -/
  classData : Heap ClassData
  /-- live pairings made by `PushInstance` -/
  pairs : Heap InstancePair
  /-- address counter of `new` -/
  nextPair : Nat
  /-- messages passed to `Error::Throw`, oldest first -/
  errors : List String

inductive Fault where
  /-- a stack index outside the frame -/
  | badStackIndex
  /-- dereference of `NULL` -/
  | nullDeref
  /-- dereference of an address or reference holding no live object -/
  | dangling
  /-- read of a variable that was never written -/
  | uninitialized
  /-- a failed `assert` -/
  | assertion
  /-- the iteration bound given to the model is used up -/
  | outOfFuel
  deriving DecidableEq, Repr

/-- Code acting on the state; it returns a value and the new state, or stops with a fault. -/
def VM (α : Type) := State → Except Fault (α × State)

instance : Monad VM where
  pure a := fun s => .ok (a, s)
  bind x f := fun s =>
    match x s with
    | .ok (a, s') => f a s'
    | .error e => .error e

def fault {α : Type} (f : Fault) : VM α := fun _ => .error f

def getState : VM State := fun s => .ok (s, s)

def setState (s : State) : VM Unit := fun _ => .ok ((), s)

/-- Dereference of a pointer into a heap. -/
def deref {α : Type} (h : Heap α) (p : Nat) : VM α :=
  if p = 0 then fault .nullDeref
  else match h.lookup p with
    | some v => pure v
    | none => fault .dangling

/-- Object behind a VM reference. -/
def resolve {α : Type} (h : Heap α) (r : Nat) : VM α :=
  match h.lookup r with
  | some v => pure v
  | none => fault .dangling

/-- Read of a local variable that may still be uninitialised. -/
def readVar (v : Option SQUserPointer) : VM SQUserPointer :=
  match v with
  | some p => pure p
  | none => fault .uninitialized

/-! ## The Squirrel primitives used by the header

The header includes `squirrel.h`; the functions of that API are not among the sources. Each is
modelled on the capability section 6 of the specification lists it under, with the behaviour of
the Squirrel 3 API. A failing primitive is observed through its `SQRESULT`; the VM's own
last-error slot is read by no code here and is left out. An output parameter is passed in and
handed back with the result.
-/

/-- Position, counted from the top, of the slot a stack index names: a positive index counts
from the bottom of the frame starting at 1, a negative one from the top starting at -1. -/
def stackPos (len : Nat) (idx : SQInteger) : Option Nat :=
  if 0 < idx ∧ idx ≤ len then some (len - idx.toNat)
  else if idx < 0 ∧ -idx ≤ len then some ((-idx).toNat - 1)
  else none

/-- Modelled from the spec: the stack slot an index names (section 6, stack manipulation); an
index outside the frame is undefined behaviour. -/
def stack_get (idx : SQInteger) : VM HSQOBJECT := fun s =>
  match (stackPos s._stack.length idx).bind (fun i => s._stack[i]?) with
  | some o => .ok (o, s)
  | none => .error .badStackIndex

/-- Modelled from the spec: push of one value (section 6, "push null / object / string
values"). -/
def Push (o : HSQOBJECT) : VM Unit := fun s =>
  .ok ((), { s with _stack := o :: s._stack })

/-- Modelled from the spec: pop of `n` values (section 6, "pop N values"); popping more than
the frame holds is undefined behaviour. -/
def Pop (n : Nat) : VM Unit := fun s =>
  if s._stack.length < n then .error .badStackIndex
  else .ok ((), { s with _stack := s._stack.drop n })

def sq_pushnull : VM Unit := Push .null

def sq_pushstring (str : String) : VM Unit := Push (.string str)

def sq_pushobject (obj : HSQOBJECT) : VM Unit := Push obj

/-- Modelled from the spec: section 6, "push the VM's global registry table". -/
def sq_pushregistrytable : VM Unit := do
  let s ← getState
  Push s._registry

def sq_pop (nelemstopop : SQInteger) : VM Unit := Pop nelemstopop.toNat

/-- Modelled from the spec: section 6, "read current stack depth". -/
def sq_gettop : VM SQInteger := do
  let s ← getState
  pure (s._stack.length : Int)

/-- Modelled from the spec: section 6, "truncate to a depth"; a larger depth is filled with
null values. -/
def sq_settop (newtop : SQInteger) : VM Unit := do
  let top ← sq_gettop
  if top > newtop then sq_pop (top - newtop)
  else
    let s ← getState
    setState { s with _stack := List.replicate (newtop - top).toNat HSQOBJECT.null ++ s._stack }

/-- Modelled from the spec: section 6, "query a value's declared type". -/
def sq_gettype (idx : SQInteger) : VM SQObjectType := do
  let o ← stack_get idx
  pure o._type

/-- Modelled from the spec: the raw lookup of `key` in `self` behind `sq_rawget` (section 6,
"raw-get by string key"), on the four kinds of receiver the API accepts; `none` when the
receiver is of another kind or has no such key. -/
def rawLookup (tables : Heap (List (HSQOBJECT × HSQOBJECT)))
    (members : HSQOBJECT → HSQOBJECT → Option HSQOBJECT) (self key : HSQOBJECT) :
    Except Fault (Option HSQOBJECT) :=
  match self with
  | .table r =>
    match tables.lookup r with
    | some t => .ok (t.lookup key)
    | none => .error .dangling
  | .klass _ => .ok (members self key)
  | .inst _ => .ok (members self key)
  | .array _ => .ok (members self key)
  | _ => .ok none

/-- Modelled from the spec: `sq_rawget` (section 6, "raw-get by string key"). On success the
key on top of the stack is replaced by the value; on failure the key is popped. -/
def sq_rawget (idx : SQInteger) : VM SQRESULT := do
  let self ← stack_get idx
  let obj ← stack_get (-1)
  let s ← getState
  match rawLookup s.tables s.members self obj with
  | .error e => fault e
  | .ok (some v) =>
    Pop 1
    Push v
    pure SQ_OK
  | .ok none =>
    Pop 1
    pure SQ_ERROR

/-- Modelled from the spec: `sq_getuserdata`, the address of the block of the userdata at `idx`
(the registry-entry handle of section 6); the address is represented by the reference. -/
def sq_getuserdata (idx : SQInteger) (p : Option SQUserPointer) :
    VM (SQRESULT × Option SQUserPointer) := do
  let o ← stack_get idx
  match o with
  | .userdata r => pure (SQ_OK, some r)
  | _ => pure (SQ_ERROR, p)

/-- Modelled from the spec: the search of `sq_getinstanceup` for a type tag along the chain of
base classes, starting with the class itself. -/
def SQClass.hasTypeTag : SQClass → SQUserPointer → Bool
  | .root _ t, typetag => t == typetag
  | .derived _ t b, typetag => t == typetag || b.hasTypeTag typetag

/-- Modelled from the spec: `sq_getinstanceup` (section 6, "retrieve that storage back out with
an expected identity-token"). It fails on a value that is no instance; it stores the user
pointer; with a non-null `typetag` it fails unless a class of the chain carries that tag. -/
def sq_getinstanceup (idx : SQInteger) (p : Option SQUserPointer) (typetag : SQUserPointer) :
    VM (SQRESULT × Option SQUserPointer) := do
  let o ← stack_get idx
  match o with
  | .inst r =>
    let s ← getState
    let i ← resolve s.instances r
    if typetag ≠ 0 then
      if i._class.hasTypeTag typetag then pure (SQ_OK, some i._userpointer)
      else pure (SQ_ERROR, some i._userpointer)
    else pure (SQ_OK, some i._userpointer)
  | _ => pure (SQ_ERROR, p)

/-- Modelled from the spec: `sq_setinstanceup` (section 6, "attach arbitrary native storage to
an instance"). -/
def sq_setinstanceup (idx : SQInteger) (p : SQUserPointer) : VM SQRESULT := do
  let o ← stack_get idx
  match o with
  | .inst r =>
    let s ← getState
    let i ← resolve s.instances r
    setState { s with instances := s.instances.update r { i with _userpointer := p } }
    pure SQ_OK
  | _ => pure SQ_ERROR

/-- Modelled from the spec: `sq_gettypetag`, the type tag of a userdata or a class, and for
an instance the tag of its class; it fails, writing nothing, on any other value. -/
def sq_gettypetag (idx : SQInteger) (typetag : Option SQUserPointer) :
    VM (SQRESULT × Option SQUserPointer) := do
  let o ← stack_get idx
  let s ← getState
  match o with
  | .inst r =>
    let i ← resolve s.instances r
    pure (SQ_OK, some i._class._typetag)
  | .userdata r =>
    let u ← resolve s.userdatas r
    pure (SQ_OK, some u._typetag)
  | .klass c => pure (SQ_OK, some c._typetag)
  | _ => pure (SQ_ERROR, typetag)

/-- Modelled from the spec: `sq_getclass` pushes the class of the instance at `idx`; on any
other value it fails and pushes nothing. -/
def sq_getclass (idx : SQInteger) : VM SQRESULT := do
  let o ← stack_get idx
  match o with
  | .inst r =>
    let s ← getState
    let i ← resolve s.instances r
    Push (.klass i._class)
    pure SQ_OK
  | _ => pure SQ_ERROR

/-- Modelled from the spec: `sq_getbase` (section 6, "walk a class's base-class chain") pushes
the base class of the class at `idx`, or null when it has none; on a value that is no class it
fails and pushes nothing. -/
def sq_getbase (idx : SQInteger) : VM SQRESULT := do
  let o ← stack_get idx
  match o with
  | .klass c =>
    match c._base with
    | some b => Push (.klass b)
    | none => Push .null
    pure SQ_OK
  | _ => pure SQ_ERROR

/-- Modelled from the spec: `sq_createinstance` (section 6, "create an instance of a given class
object") pushes a new instance, with no user pointer and no hook, of the class at `idx`; on a
value that is no class it fails and pushes nothing. -/
def sq_createinstance (idx : SQInteger) : VM SQRESULT := do
  let o ← stack_get idx
  match o with
  | .klass c =>
    let s ← getState
    setState { s with
      instances := (s.nextInstance, { _class := c, _userpointer := 0, _hook := none }) :: s.instances
      nextInstance := s.nextInstance + 1 }
    Push (.inst s.nextInstance)
    pure SQ_OK
  | _ => pure SQ_ERROR

/-- Modelled from the spec: `sq_remove` takes the slot at `idx` out of the stack. -/
def sq_remove (idx : SQInteger) : VM Unit := fun s =>
  match stackPos s._stack.length idx with
  | some i => .ok ((), { s with _stack := s._stack.eraseIdx i })
  | none => .error .badStackIndex

/-- Modelled from the spec: `sq_setreleasehook` (section 6, "install a finalization
callback") on a userdata, an instance or a class; other values are left alone. -/
def sq_setreleasehook (idx : SQInteger) (hook : SQRELEASEHOOK) : VM Unit := do
  if (← sq_gettop) ≥ 1 then
    let ud ← stack_get idx
    let s ← getState
    match ud with
    | .userdata r =>
      let u ← resolve s.userdatas r
      setState { s with userdatas := s.userdatas.update r { u with _hook := some hook } }
    | .inst r =>
      let i ← resolve s.instances r
      setState { s with instances := s.instances.update r { i with _hook := some hook } }
    | .klass c => setState { s with classHooks := (c.id, hook) :: s.classHooks }
    | _ => pure ()
  else pure ()

/-- Modelled from the spec: `sq_getstackobj` hands out the handle in the slot at `idx`. -/
def sq_getstackobj (idx : SQInteger) : VM (SQRESULT × HSQOBJECT) := do
  let o ← stack_get idx
  pure (SQ_OK, o)

/-! ## Parts of `sqratUtil.h` the header relies on -/

/-- Modelled from the spec: `WeakPtr<AbstractStaticClassData>` is declared in sqratUtil.h, which
is not among the sources. The descriptor is "held weakly", so the pointer names a descriptor
only while one is live at that address. -/
structure WeakPtr where
  ptr : SQUserPointer

/-- Modelled from the spec: `WeakPtr::Expired` (sqratUtil.h); true when no live descriptor is
behind the pointer. -/
def WeakPtr.Expired (w : WeakPtr) (s : State) : Bool :=
  w.ptr == 0 || (s.statics.lookup w.ptr).isNone

/-- Modelled from the spec: `WeakPtr::Lock().Get()` (sqratUtil.h); the raw pointer of the
descriptor, `NULL` once expired. -/
def WeakPtr.LockGet (w : WeakPtr) (s : State) : SQUserPointer :=
  if w.Expired s then 0 else w.ptr

/-- The switches of the build, and the message formatter of sqratUtil.h.
`FormatTypeError vm idx expectedType` is `Error::FormatTypeError`; it is not among the sources
and is left a parameter. -/
structure Config where
  NDEBUG : Bool
  SCRAT_NO_ERROR_CHECKING : Bool
  FormatTypeError : State → SQInteger → String → String

/-- Modelled from the spec: `Error::Throw` (sqratUtil.h) raises "a VM-level error carrying a
formatted message"; every raise is recorded, in order, in `errors`. -/
def Error.Throw (err : String) : VM Unit := fun s =>
  .ok ((), { s with errors := s.errors ++ [err] })

/-- An `assert` of the header; compiled out under `NDEBUG`. -/
def assert (cfg : Config) (cond : Bool) : VM Unit :=
  if cfg.NDEBUG then pure ()
  else if cond then pure () else fault .assertion

/-! ## `StaticClassData<C, B>::Cast` (lines 55-63) -/

/-- The call `this->Cast(ptr, classType)`. The virtual call reads the object behind `this`;
`fuel` bounds the number of nested calls. -/
def Cast (statics : Heap AbstractStaticClassData) :
    Nat → SQUserPointer → SQUserPointer → SQUserPointer → Except Fault SQUserPointer
  | 0, _, _, _ => .error .outOfFuel
  | fuel + 1, this, ptr, classType =>
    if this = 0 then .error .nullDeref
    else match statics.lookup this with
      | none => .error .dangling
      | some self =>
        if classType ≠ this then
          Cast statics fuel self.baseClass (self.upcast ptr) classType
        else .ok ptr

/-! ## `std::map` operations used on `ClassData::instances` -/

def InstanceMap.find (m : InstanceMap) (k : SQUserPointer) : Option HSQOBJECT :=
  m.lookup k

def InstanceMap.erase (m : InstanceMap) (k : SQUserPointer) : InstanceMap :=
  m.filter (fun e => decide (e.1 ≠ k))

/-- The effect of `m[k] = v`: `operator[]` inserts an entry when none has the key, and the
entry is then assigned. -/
def InstanceMap.assign (m : InstanceMap) (k : SQUserPointer) (v : HSQOBJECT) : InstanceMap :=
  match m.lookup k with
  | some _ => m.map (fun e => if e.1 = k then (k, v) else e)
  | none => (k, v) :: m

/-- The template instance `ClassType<C>`: its one piece of static state, the function-local
`static WeakPtr<AbstractStaticClassData> instance` of `getStaticClassData`. -/
structure ClassType where
  getStaticClassData : WeakPtr

def instance_cleanup_hook (ptr : SQUserPointer) (_size : SQInteger) : VM SQInteger := do
  let s ← getState
  let inst ← deref s.pairs ptr
  let cd ← deref s.classData inst.second
  setState { s with
    classData := s.classData.update inst.second { cd with instances := cd.instances.erase inst.first }
    pairs := s.pairs.free ptr }
  pure 0

def ClassName (cfg : Config) (C : ClassType) : VM String := do
  let s ← getState
  assert cfg (C.getStaticClassData.Expired s == false)
  let d ← deref s.statics (C.getStaticClassData.LockGet s)
  pure d.className

def getClassData (cfg : Config) (C : ClassType) : VM SQUserPointer := do
  sq_pushregistrytable
  sq_pushstring "__classes"
  let r ← sq_rawget (-2)
  assert cfg (r == SQ_OK)
  sq_pushstring (← ClassName cfg C)
  let r ← sq_rawget (-2)
  assert cfg (r == SQ_OK)
  let (_, ud) ← sq_getuserdata (-1) none
  sq_pop 3
  let s ← getState
  let block ← resolve s.userdatas (← readVar ud)
  pure block.val

def hasClassData (cfg : Config) (C : ClassType) : VM Bool := do
  let s ← getState
  if !C.getStaticClassData.Expired s then
    sq_pushregistrytable
    sq_pushstring "__classes"
    if SQ_SUCCEEDED (← sq_rawget (-2)) then
      sq_pushstring (← ClassName cfg C)
      if SQ_SUCCEEDED (← sq_rawget (-2)) then
        sq_pop 3
        pure true
      else
        sq_pop 1
        sq_pop 1
        pure false
    else
      sq_pop 1
      pure false
  else pure false

/-- The address `new` returns for the pairing; it is never `NULL`. -/
def newPair (v : InstancePair) : VM SQUserPointer := fun s =>
  .ok (s.nextPair + 1, { s with pairs := (s.nextPair + 1, v) :: s.pairs, nextPair := s.nextPair + 1 })

def PushInstance (cfg : Config) (C : ClassType) (ptr : SQUserPointer) : VM Unit := do
  if ptr = 0 then
    sq_pushnull
  else
    let cd ← getClassData cfg C
    let s ← getState
    let cdv ← deref s.classData cd
    match cdv.instances.find ptr with
    | some obj => sq_pushobject obj
    | none =>
      sq_pushobject cdv.classObj
      let _ ← sq_createinstance (-1)
      sq_remove (-2)
      let pair ← newPair { first := ptr, second := cd }
      let _ ← sq_setinstanceup (-1) pair
      sq_setreleasehook (-1) .instance_cleanup_hook
      let (_, obj) ← sq_getstackobj (-1)
      let s ← getState
      let cdv ← deref s.classData cd
      setState { s with classData := s.classData.update cd { cdv with instances := cdv.instances.assign ptr obj } }

/-- Lines 179-204 of `GetInstance`: `none` when the function has returned `NULL` there, otherwise
the values of the locals `classType` and `instance`. -/
def GetInstance.validate (cfg : Config) (C : ClassType) (idx : SQInteger) (nullAllowed : Bool) :
    VM (Option (SQUserPointer × Option SQUserPointer)) := do
  if ← hasClassData cfg C then
    let isNull ← if nullAllowed then (do pure (decide ((← sq_gettype idx) = .OT_NULL))) else pure false
    if isNull then pure none
    else
      let s ← getState
      let classType := C.getStaticClassData.LockGet s
      if !cfg.SCRAT_NO_ERROR_CHECKING then
        let (r, inst) ← sq_getinstanceup idx (some 0) classType
        if SQ_FAILED r then
          let name ← ClassName cfg C
          let s ← getState
          Error.Throw (cfg.FormatTypeError s idx name)
          pure none
        else pure (some (classType, inst))
      else
        let (_, inst) ← sq_getinstanceup idx (some 0) 0
        pure (some (classType, inst))
  else
    if !cfg.SCRAT_NO_ERROR_CHECKING then
      let s ← getState
      Error.Throw (cfg.FormatTypeError s idx "unknown")
    pure none

/-- The body of the loop of lines 210-213. -/
def GetInstance.walkStep (actualType : Option SQUserPointer) : VM (Option SQUserPointer) := do
  let _ ← sq_getbase (-1)
  let (_, actualType) ← sq_gettypetag (-1) actualType
  pure actualType

/-- The loop `while (actualType == NULL)` of lines 210-213, run for at most `fuel` iterations. -/
def GetInstance.walk : Nat → Option SQUserPointer → VM (Option SQUserPointer)
  | fuel, actualType => do
    if (← readVar actualType) = 0 then
      match fuel with
      | 0 => fault .outOfFuel
      | fuel + 1 => GetInstance.walk fuel (← GetInstance.walkStep actualType)
    else pure actualType

/-- Lines 205-215 of `GetInstance`: the actual type of the value at `idx`. -/
def GetInstance.actualType (fuel : Nat) (idx : SQInteger) : VM SQUserPointer := do
  let (_, actualType) ← sq_gettypetag idx none
  if (← readVar actualType) = 0 then
    let top ← sq_gettop
    let _ ← sq_getclass idx
    let actualType ← GetInstance.walk fuel actualType
    sq_settop top
    readVar actualType
  else readVar actualType

def GetInstance (cfg : Config) (C : ClassType) (fuel : Nat) (idx : SQInteger) (nullAllowed : Bool) :
    VM SQUserPointer := do
  match ← GetInstance.validate cfg C idx nullAllowed with
  | none => pure 0
  | some (classType, inst) =>
    let actualType ← GetInstance.actualType fuel idx
    let s ← getState
    let pair ← deref s.pairs (← readVar inst)
    if classType ≠ actualType then
      match Cast s.statics fuel actualType pair.first classType with
      | .ok p => pure p
      | .error e => fault e
    else pure pair.first

/-! ## Notions used to state the properties -/

/-- The registry entry the two nested raw lookups of `hasClassData` and `getClassData` find for
`C`: `none` when the descriptor of `C` has expired, when the registry table has no `"__classes"`
entry, or when that entry has nothing under the class name. -/
def registryEntry (C : ClassType) (s : State) : Except Fault (Option HSQOBJECT) :=
  if C.getStaticClassData.Expired s then .ok none
  else
    match s.statics.lookup C.getStaticClassData.ptr with
    | none => .ok none
    | some d =>
      match rawLookup s.tables s.members s._registry (.string "__classes") with
      | .error e => .error e
      | .ok none => .ok none
      | .ok (some classes) => rawLookup s.tables s.members classes (.string d.className)

/-- Class `C` has a registry entry in the VM. -/
def HasEntry (C : ClassType) (s : State) : Prop :=
  ∃ e, registryEntry C s = .ok (some e)

/-- Class `C` has no registry entry in the VM. -/
def NoEntry (C : ClassType) (s : State) : Prop :=
  registryEntry C s = .ok none

/-- The `ClassData` pointer the registry of the VM holds for `C`. -/
def registered? (C : ClassType) (s : State) : Option SQUserPointer :=
  match registryEntry C s with
  | .ok (some (.userdata u)) => (s.userdatas.lookup u).map (fun b => b.val)
  | _ => none

/-- Class `C` is registered in the VM: the registry leads to the live `ClassData` `cdv` at the
address `cd`, and its class object is the Squirrel class `k`. -/
def Registered (C : ClassType) (s : State) (cd : SQUserPointer) (cdv : ClassData) (k : SQClass) :
    Prop :=
  registered? C s = some cd ∧ cd ≠ 0 ∧ s.classData.lookup cd = some cdv ∧ cdv.classObj = .klass k

/-- The class reached from `c` after `n` steps to the base class. -/
def SQClass.ancestor : Nat → SQClass → Option SQClass
  | 0, c => some c
  | n + 1, c =>
    match c._base with
    | some b => SQClass.ancestor n b
    | none => none

/-- Distance and type tag of the nearest proper ancestor of a class that carries a type tag. -/
def SQClass.nearestTagged : SQClass → Option (Nat × SQUserPointer)
  | .root _ _ => none
  | .derived _ _ b =>
    if b._typetag ≠ 0 then some (1, b._typetag)
    else (SQClass.nearestTagged b).map (fun r => (r.1 + 1, r.2))

/-- Number of loop iterations and type tag the resolution of lines 205-215 arrives at for a
value whose class is `c`, if it arrives anywhere. -/
def SQClass.resolvedTag (c : SQClass) : Option (Nat × SQUserPointer) :=
  if c._typetag ≠ 0 then some (0, c._typetag) else c.nearestTagged

/-- Descriptor `t` is reached from descriptor `d` by walking up exactly `k` `baseClass` links,
all descriptors on the way being live and none before the last being `t`. -/
def reaches (statics : Heap AbstractStaticClassData) : Nat → SQUserPointer → SQUserPointer → Bool
  | 0, d, t => decide (d = t) && decide (d ≠ 0) && (statics.lookup d).isSome
  | k + 1, d, t =>
    decide (d ≠ t) && decide (d ≠ 0) &&
      match statics.lookup d with
      | some self => reaches statics k self.baseClass t
      | none => false

/-- Pointer `p` after the upcast conversions of the first `k` descriptors from `d` upwards,
applied in that order. -/
def upcasts (statics : Heap AbstractStaticClassData) : Nat → SQUserPointer → SQUserPointer → SQUserPointer
  | 0, _, p => p
  | k + 1, d, p =>
    match statics.lookup d with
    | some self => upcasts statics k self.baseClass (self.upcast p)
    | none => p

/-- Every entry of the instances map is the proxy `PushInstance` made for its key: a live
proxy of class `k` whose pairing is live and holds the key. -/
def ProxiesOK (s : State) (m : InstanceMap) (k : SQClass) : Prop :=
  ∀ q o, m.find q = some o →
    ∃ r i pr, o = .inst r ∧ s.instances.lookup r = some i ∧ i._class = k ∧
      i._userpointer ≠ 0 ∧ s.pairs.lookup i._userpointer = some pr ∧ pr.first = q

/-- The state in which the create branch of `PushInstance` (lines 163-168) ends when it runs in
`s` for the pointer `ptr` of a class whose `ClassData` `cdv` lies at `cd` and whose class object
is `k`: a new instance with a new pairing, on the stack and in the map. -/
def State.withProxy (s : State) (cd ptr : SQUserPointer) (cdv : ClassData) (k : SQClass) : State :=
  { s with
    _stack := .inst s.nextInstance :: s._stack
    instances := (s.nextInstance,
      { _class := k, _userpointer := s.nextPair + 1, _hook := some .instance_cleanup_hook }) ::
        s.instances
    nextInstance := s.nextInstance + 1
    pairs := (s.nextPair + 1, { first := ptr, second := cd }) :: s.pairs
    nextPair := s.nextPair + 1
    classData := s.classData.update cd
      { cdv with instances := (ptr, .inst s.nextInstance) :: cdv.instances } }

/-! ## A concrete VM: `Animal <- Dog <- Puppy` -/

/-- The conversion of a derived pointer to a base subobject that lies `k` bytes into the object. -/
def upcastBy (k : Nat) (p : SQUserPointer) : SQUserPointer :=
  if p = 0 then 0 else p + k

def Animal : ClassType := { getStaticClassData := { ptr := 10 } }
def Dog : ClassType := { getStaticClassData := { ptr := 20 } }
def Puppy : ClassType := { getStaticClassData := { ptr := 30 } }
/-- A class that was never registered: its weak pointer is empty. -/
def Cat : ClassType := { getStaticClassData := { ptr := 0 } }

def animalClass : SQClass := .root 1 10
def dogClass : SQClass := .derived 2 20 animalClass
def puppyClass : SQClass := .derived 3 30 dogClass
/-- A class written in script that extends `Dog`: it carries no type tag of its own. -/
def huskyClass : SQClass := .derived 4 0 dogClass
/-- A class written in script with no native ancestor. -/
def plainClass : SQClass := .derived 6 0 (.root 5 0)

def checked : Config :=
  { NDEBUG := false
    SCRAT_NO_ERROR_CHECKING := false
    FormatTypeError := fun _ _ expectedType => "wrong type (" ++ expectedType ++ " expected)" }

def animalData : ClassData :=
  { classObj := .klass animalClass, getTable := .null, setTable := .null, instances := [],
    staticData := 10 }
def dogData : ClassData :=
  { classObj := .klass dogClass, getTable := .null, setTable := .null, instances := [],
    staticData := 20 }
def puppyData : ClassData :=
  { classObj := .klass puppyClass, getTable := .null, setTable := .null, instances := [],
    staticData := 30 }

/-- A VM in which `Animal`, `Dog` and `Puppy` are registered and nothing has been pushed. -/
def zoo : State :=
  { _stack := []
    _registry := .table 1
    tables := [(1, [(.string "__classes", .table 2)]),
      (2, [(.string "Animal", .userdata 1), (.string "Dog", .userdata 2),
        (.string "Puppy", .userdata 3)])]
    userdatas := [(1, { val := 100, _typetag := 0, _hook := none }),
      (2, { val := 200, _typetag := 0, _hook := none }),
      (3, { val := 300, _typetag := 0, _hook := none })]
    instances := []
    nextInstance := 1
    classHooks := []
    members := fun _ _ => none
    statics := [(10, { baseClass := 0, className := "Animal", copyFunc := 0, upcast := id }),
      (20, { baseClass := 10, className := "Dog", copyFunc := 0, upcast := upcastBy 8 }),
      (30, { baseClass := 20, className := "Puppy", copyFunc := 0, upcast := upcastBy 16 })]
    classData := [(100, animalData), (200, dogData), (300, puppyData)]
    pairs := []
    nextPair := 0
    errors := [] }

/-- The VM `zoo` after a `Dog` at address 1000 has been pushed: its proxy is instance 1. -/
def zooWithDog : State :=
  { zoo with
    _stack := [.inst 1]
    instances := [(1, { _class := dogClass, _userpointer := 1, _hook := some .instance_cleanup_hook })]
    nextInstance := 2
    classData := [(100, animalData),
      (200, { dogData with instances := [(1000, .inst 1)] }), (300, puppyData)]
    pairs := [(1, { first := 1000, second := 200 })]
    nextPair := 1 }

/-- The VM `zoo` with the null value on the stack. -/
def zooWithNull : State := { zoo with _stack := [.null] }

/-- The VM `zoo` with two script-made instances on the stack: a `huskyClass` instance on top of
a `plainClass` instance. -/
def zooWithScripted : State :=
  { zoo with
    _stack := [.inst 1, .inst 2]
    instances := [(1, { _class := huskyClass, _userpointer := 1, _hook := none }),
      (2, { _class := plainClass, _userpointer := 0, _hook := none })]
    nextInstance := 3
    pairs := [(1, { first := 2000, second := 200 })]
    nextPair := 1 }

/-! ## Evaluation lemmas -/

@[simp] theorem VM.bind_apply {α β : Type} (x : VM α) (f : α → VM β) (s : State) :
    (x >>= f) s = match x s with
      | .ok (a, s') => f a s'
      | .error e => .error e := rfl

@[simp] theorem VM.pure_apply {α : Type} (a : α) (s : State) : (pure a : VM α) s = .ok (a, s) := rfl

@[simp] theorem fault_apply {α : Type} (f : Fault) (s : State) : (fault f : VM α) s = .error f := rfl

@[simp] theorem getState_apply (s : State) : getState s = .ok (s, s) := rfl

@[simp] theorem setState_apply (s t : State) : setState t s = .ok ((), t) := rfl

@[simp] theorem Push_apply (o : HSQOBJECT) (s : State) :
    Push o s = .ok ((), { s with _stack := o :: s._stack }) := rfl

theorem stackPos_neg_one (n : Nat) : stackPos (n + 1) (-1) = some 0 := by
  simp [stackPos]

theorem stackPos_neg_two (n : Nat) : stackPos (n + 2) (-2) = some 1 := by
  simp [stackPos]

theorem stack_get_neg_one (s : State) :
    stack_get (-1) s = match s._stack with
      | o :: _ => .ok (o, s)
      | [] => .error .badStackIndex := by
  cases h : s._stack with
  | nil => simp [stack_get, h, stackPos]
  | cons o rest => simp [stack_get, h, stackPos]

theorem stack_get_neg_two (s : State) :
    stack_get (-2) s = match s._stack with
      | _ :: o :: _ => .ok (o, s)
      | _ => .error .badStackIndex := by
  match h : s._stack with
  | [] => simp [stack_get, h, stackPos]
  | [_] => simp [stack_get, h, stackPos]
  | _ :: o :: rest => simp [stack_get, h, stackPos_neg_two]

theorem Pop_one (s : State) :
    Pop 1 s = match s._stack with
      | _ :: rest => .ok ((), { s with _stack := rest })
      | [] => .error .badStackIndex := by
  cases h : s._stack with
  | nil => simp [Pop, h]
  | cons o rest => simp [Pop, h]

theorem Pop_three (s : State) :
    Pop 3 s = match s._stack with
      | _ :: _ :: _ :: rest => .ok ((), { s with _stack := rest })
      | _ => .error .badStackIndex := by
  match h : s._stack with
  | [] => simp [Pop, h]
  | [_] => simp [Pop, h]
  | [_, _] => simp [Pop, h]
  | _ :: _ :: _ :: rest => simp [Pop, h]

theorem sq_remove_neg_two (s : State) :
    sq_remove (-2) s = match s._stack with
      | a :: _ :: rest => .ok ((), { s with _stack := a :: rest })
      | _ => .error .badStackIndex := by
  match h : s._stack with
  | [] => simp [sq_remove, h, stackPos]
  | [_] => simp [sq_remove, h, stackPos]
  | _ :: o :: rest => simp [sq_remove, h, stackPos_neg_two]

theorem ClassName_live (cfg : Config) (C : ClassType) (s : State) (d : AbstractStaticClassData)
    (h0 : C.getStaticClassData.ptr ≠ 0) (hd : s.statics.lookup C.getStaticClassData.ptr = some d) :
    ClassName cfg C s = .ok (d.className, s) := by
  simp [ClassName, assert, WeakPtr.Expired, WeakPtr.LockGet, h0, hd, deref]

/-- The probe `hasClassData` answers whether the registry entry exists and restores the stack. -/
theorem hasClassData_eq (cfg : Config) (C : ClassType) (s : State) :
    hasClassData cfg C s =
      match registryEntry C s with
      | .error e => .error e
      | .ok none => .ok (false, s)
      | .ok (some _) => .ok (true, s) := by
  by_cases hexp : C.getStaticClassData.Expired s = true
  · simp [hasClassData, registryEntry, hexp]
  · have hexp' := hexp
    simp only [WeakPtr.Expired, Bool.or_eq_true, beq_iff_eq, Option.isNone_iff_eq_none, not_or] at hexp'
    obtain ⟨h0, hl⟩ := hexp'
    cases hd : s.statics.lookup C.getStaticClassData.ptr with
    | none => exact absurd hd hl
    | some d =>
      have hcn : ∀ stk, ClassName cfg C { s with _stack := stk } =
          .ok (d.className, { s with _stack := stk }) :=
        fun stk => ClassName_live cfg C _ d h0 hd
      simp only [registryEntry, hexp, hd]
      cases hc : rawLookup s.tables s.members s._registry (.string "__classes") with
      | error e =>
        simp [hasClassData, hexp, sq_pushregistrytable, sq_pushstring, sq_rawget,
          stack_get_neg_one, stack_get_neg_two, hc]
      | ok v =>
        cases v with
        | none =>
          simp [hasClassData, hexp, sq_pushregistrytable, sq_pushstring, sq_rawget,
            stack_get_neg_one, stack_get_neg_two, hc, Pop_one, SQ_SUCCEEDED, SQ_ERROR, sq_pop]
        | some classes =>
          cases hu : rawLookup s.tables s.members classes (.string d.className) with
          | error e =>
            simp [hasClassData, hexp, sq_pushregistrytable, sq_pushstring, sq_rawget,
              stack_get_neg_one, stack_get_neg_two, hc, Pop_one, SQ_SUCCEEDED, SQ_OK, hcn, hu]
          | ok w =>
            cases w with
            | none =>
              simp [hasClassData, hexp, sq_pushregistrytable, sq_pushstring, sq_rawget,
                stack_get_neg_one, stack_get_neg_two, hc, Pop_one, SQ_SUCCEEDED, SQ_OK, SQ_ERROR,
                hcn, hu, sq_pop]
            | some e =>
              simp [hasClassData, hexp, sq_pushregistrytable, sq_pushstring, sq_rawget,
                stack_get_neg_one, stack_get_neg_two, hc, Pop_one, Pop_three, SQ_SUCCEEDED, SQ_OK,
                hcn, hu, sq_pop]

theorem hasClassData_hasEntry (cfg : Config) (C : ClassType) (s : State) (h : HasEntry C s) :
    hasClassData cfg C s = .ok (true, s) := by
  obtain ⟨e, he⟩ := h
  simp [hasClassData_eq, he]

theorem hasClassData_noEntry (cfg : Config) (C : ClassType) (s : State) (h : NoEntry C s) :
    hasClassData cfg C s = .ok (false, s) := by
  unfold NoEntry at h
  simp [hasClassData_eq, h]

/-- What `registered?` found, spelled out. -/
theorem registered?_some (C : ClassType) (s : State) (cd : SQUserPointer)
    (h : registered? C s = some cd) :
    ∃ d classes u b, C.getStaticClassData.ptr ≠ 0 ∧
      s.statics.lookup C.getStaticClassData.ptr = some d ∧
      rawLookup s.tables s.members s._registry (.string "__classes") = .ok (some classes) ∧
      rawLookup s.tables s.members classes (.string d.className) = .ok (some (.userdata u)) ∧
      s.userdatas.lookup u = some b ∧ b.val = cd ∧
      registryEntry C s = .ok (some (.userdata u)) := by
  unfold registered? at h
  split at h
  · rename_i u hre
    have hre' := hre
    unfold registryEntry at hre
    split at hre
    · simp at hre
    · rename_i hexp
      split at hre
      · simp at hre
      · rename_i d hd
        split at hre
        · simp at hre
        · simp at hre
        · rename_i classes hc
          cases hb : s.userdatas.lookup u with
          | none => simp [hb] at h
          | some b =>
            simp [hb] at h
            refine ⟨d, classes, u, b, ?_, hd, hc, hre, hb, h, hre'⟩
            intro h0; simp [WeakPtr.Expired, h0] at hexp
  · simp at h

theorem registered?_hasEntry (C : ClassType) (s : State) (cd : SQUserPointer)
    (h : registered? C s = some cd) : HasEntry C s := by
  obtain ⟨_, _, u, _, _, _, _, _, _, _, hre⟩ := registered?_some C s cd h
  exact ⟨_, hre⟩

theorem getClassData_registered (cfg : Config) (C : ClassType) (s : State) (cd : SQUserPointer)
    (h : registered? C s = some cd) : getClassData cfg C s = .ok (cd, s) := by
  obtain ⟨d, classes, u, b, h0, hd, hc, hu, hb, hv, _⟩ := registered?_some C s cd h
  have hcn : ∀ stk, ClassName cfg C { s with _stack := stk } =
      .ok (d.className, { s with _stack := stk }) :=
    fun stk => ClassName_live cfg C _ d h0 hd
  simp [getClassData, sq_pushregistrytable, sq_pushstring, sq_rawget, sq_getuserdata,
    stack_get_neg_one, stack_get_neg_two, Pop_one, Pop_three, hc, hu, hcn, SQ_OK, sq_pop, assert,
    readVar, resolve, hb, hv]

theorem Heap.update_head {α : Type} (h : Heap α) (k : Nat) (v w : α) :
    Heap.update ((k, v) :: h) k w = (k, w) :: h := by
  simp [Heap.update]

theorem PushInstance_found (cfg : Config) (C : ClassType) (s : State) (ptr cd : SQUserPointer)
    (cdv : ClassData) (obj : HSQOBJECT) (hp : ptr ≠ 0) (hr : registered? C s = some cd)
    (h0 : cd ≠ 0) (hcd : s.classData.lookup cd = some cdv) (hf : cdv.instances.find ptr = some obj) :
    PushInstance cfg C ptr s = .ok ((), { s with _stack := obj :: s._stack }) := by
  simp [PushInstance, hp, getClassData_registered cfg C s cd hr, deref, h0, hcd, hf, sq_pushobject]

theorem PushInstance_create (cfg : Config) (C : ClassType) (s : State) (ptr cd : SQUserPointer)
    (cdv : ClassData) (k : SQClass) (hp : ptr ≠ 0) (hr : registered? C s = some cd)
    (h0 : cd ≠ 0) (hcd : s.classData.lookup cd = some cdv) (hf : cdv.instances.find ptr = none)
    (hk : cdv.classObj = .klass k) :
    PushInstance cfg C ptr s = .ok ((), s.withProxy cd ptr cdv k) := by
  have hf' : List.lookup ptr cdv.instances = none := hf
  simp [PushInstance, hp, getClassData_registered cfg C s cd hr, deref, h0, hcd, hf, sq_pushobject,
    sq_createinstance, stack_get_neg_one, hk, sq_remove_neg_two, newPair, sq_setinstanceup, resolve,
    Heap.update_head, sq_setreleasehook, sq_gettop, sq_getstackobj, InstanceMap.assign, hf',
    State.withProxy]

theorem walk_null (fuel : Nat) (s : State) (stk : List HSQOBJECT) (h : s._stack = .null :: stk) :
    GetInstance.walk fuel (some 0) s = .error .outOfFuel := by
  induction fuel with
  | zero => simp [GetInstance.walk, readVar]
  | succ n ih =>
    rw [GetInstance.walk]
    simp [readVar, GetInstance.walkStep, sq_getbase, sq_gettypetag, stack_get_neg_one, h, SQ_ERROR, ih]

theorem nearestTagged_ne_zero (c : SQClass) (k : Nat) (t : SQUserPointer)
    (h : c.nearestTagged = some (k, t)) : t ≠ 0 ∧ 1 ≤ k := by
  induction c generalizing k t with
  | root i tg => simp [SQClass.nearestTagged] at h
  | derived i tg b ih =>
    simp only [SQClass.nearestTagged] at h
    split at h
    · rename_i hb
      simp at h
      obtain ⟨h1, h2⟩ := h
      subst h1; subst h2
      exact ⟨hb, le_refl _⟩
    · cases hn : b.nearestTagged with
      | none => simp [hn] at h
      | some r =>
        simp [hn] at h
        obtain ⟨h1, h2⟩ := h
        have := ih r.1 r.2 hn
        subst h1; subst h2
        exact ⟨this.1, by omega⟩

theorem walk_klass (c : SQClass) :
    ∀ (fuel : Nat) (s : State) (stk : List HSQOBJECT), s._stack = .klass c :: stk →
      (∀ k t, c.nearestTagged = some (k, t) →
        (k ≤ fuel → ∃ extra, GetInstance.walk fuel (some 0) s =
            .ok (some t, { s with _stack := extra ++ s._stack })) ∧
        (fuel < k → GetInstance.walk fuel (some 0) s = .error .outOfFuel)) ∧
      (c.nearestTagged = none → GetInstance.walk fuel (some 0) s = .error .outOfFuel) := by
  induction c with
  | root i tg =>
    intro fuel s stk h
    refine ⟨fun k t hn => by simp [SQClass.nearestTagged] at hn, fun _ => ?_⟩
    cases fuel with
    | zero => simp [GetInstance.walk, readVar]
    | succ n =>
      rw [GetInstance.walk]
      simp [readVar, GetInstance.walkStep, sq_getbase, sq_gettypetag, stack_get_neg_one, h,
        SQClass._base, SQ_ERROR]
      exact walk_null n _ _ rfl
  | derived i tg b ih =>
    intro fuel s stk h
    cases fuel with
    | zero =>
      refine ⟨fun k t hn => ⟨fun hk => ?_, fun _ => by simp [GetInstance.walk, readVar]⟩,
        fun _ => by simp [GetInstance.walk, readVar]⟩
      have := (nearestTagged_ne_zero _ k t hn).2
      omega
    | succ n =>
      have hstep : GetInstance.walk (n + 1) (some 0) s =
          GetInstance.walk n (some b._typetag) { s with _stack := .klass b :: s._stack } := by
        rw [GetInstance.walk]
        simp [readVar, GetInstance.walkStep, sq_getbase, sq_gettypetag, stack_get_neg_one, h,
          SQClass._base, SQ_OK]
      by_cases hb : b._typetag = 0
      · have ih' := ih n { s with _stack := .klass b :: s._stack } (s._stack) rfl
        rw [hstep, hb]
        refine ⟨fun k t hn => ?_, fun hn => ?_⟩
        · simp only [SQClass.nearestTagged, hb, ne_eq, not_true_eq_false, if_false] at hn
          cases hnb : b.nearestTagged with
          | none => simp [hnb] at hn
          | some r =>
            simp [hnb] at hn
            obtain ⟨h1, h2⟩ := hn
            have hr := ih'.1 r.1 r.2 hnb
            subst h1; subst h2
            refine ⟨fun hk => ?_, fun hk => hr.2 (by omega)⟩
            obtain ⟨extra, he⟩ := hr.1 (by omega)
            refine ⟨extra ++ [.klass b], ?_⟩
            rw [he]
            simp
        · simp only [SQClass.nearestTagged, hb, ne_eq, not_true_eq_false, if_false] at hn
          cases hnb : b.nearestTagged with
          | none => exact ih'.2 hnb
          | some r => simp [hnb] at hn
      · rw [hstep]
        have hw : ∀ st : State, GetInstance.walk n (some b._typetag) st = .ok (some b._typetag, st) := by
          intro st
          cases n with
          | zero => simp [GetInstance.walk, readVar, hb]
          | succ m => rw [GetInstance.walk]; simp [readVar, hb]
        rw [hw]
        refine ⟨fun k t hn => ?_, fun hn => ?_⟩
        · simp [SQClass.nearestTagged, hb] at hn
          obtain ⟨h1, h2⟩ := hn
          subst h1; subst h2
          refine ⟨fun _ => ⟨[.klass b], by simp⟩, fun hk => by omega⟩
        · simp [SQClass.nearestTagged, hb] at hn

theorem sq_settop_restore (s : State) (extra stk : List HSQOBJECT) (h : s._stack = extra ++ stk) :
    sq_settop (stk.length : Int) s = .ok ((), { s with _stack := stk }) := by
  cases extra with
  | nil =>
    simp at h
    simp [sq_settop, sq_gettop, h]
  | cons e es =>
    have hlt : (stk.length : Int) < ((e :: es ++ stk).length : Int) := by
      simp; omega
    have hn : ((((e :: es) ++ stk).length : Int) - (stk.length : Int)).toNat = (e :: es).length := by
      simp only [List.length_append, List.length_cons]
      omega
    simp only [sq_settop, sq_gettop, VM.bind_apply, getState_apply, VM.pure_apply, h, gt_iff_lt, hlt,
      if_true, sq_pop, Pop, hn]
    simp

/-- Lines 205-215 on an instance: the type tag of its class when that is set, otherwise the tag
of the nearest tagged ancestor, found after as many iterations as its distance; the stack is
put back as it was. Without a tagged ancestor every iteration bound is exhausted. -/
theorem actualType_instance (fuel : Nat) (idx : SQInteger) (s : State) (r : Nat) (i : SQInstance)
    (hv : stack_get idx s = .ok (.inst r, s)) (hi : s.instances.lookup r = some i) :
    GetInstance.actualType fuel idx s =
      match i._class.resolvedTag with
      | some (k, t) => if k ≤ fuel then .ok (t, s) else .error .outOfFuel
      | none => .error .outOfFuel := by
  by_cases ht : i._class._typetag = 0
  · have hres : i._class.resolvedTag = i._class.nearestTagged := by
      simp [SQClass.resolvedTag, ht]
    have hw := walk_klass i._class fuel { s with _stack := .klass i._class :: s._stack } s._stack rfl
    rw [hres]
    cases hn : i._class.nearestTagged with
    | none =>
      have := hw.2 hn
      simp [GetInstance.actualType, sq_gettypetag, hv, resolve, hi, readVar, ht, sq_gettop,
        sq_getclass, this]
    | some kt =>
      obtain ⟨k, t⟩ := kt
      have h1 := hw.1 k t hn
      by_cases hk : k ≤ fuel
      · obtain ⟨extra, he⟩ := h1.1 hk
        have hst := sq_settop_restore
          { s with _stack := extra ++ (.klass i._class :: s._stack) } (extra ++ [.klass i._class])
          s._stack (by simp)
        simp [GetInstance.actualType, sq_gettypetag, hv, resolve, hi, readVar, ht, sq_gettop,
          sq_getclass, he, hk, hst]
      · have := h1.2 (by omega)
        simp [GetInstance.actualType, sq_gettypetag, hv, resolve, hi, readVar, ht, sq_gettop,
          sq_getclass, this, hk]
  · simp [GetInstance.actualType, sq_gettypetag, hv, resolve, hi, readVar, ht, SQClass.resolvedTag]

theorem hasEntry_not_expired (C : ClassType) (s : State) (h : HasEntry C s) :
    C.getStaticClassData.Expired s = false := by
  obtain ⟨e, he⟩ := h
  unfold registryEntry at he
  split at he
  · simp at he
  · rename_i hx; simpa using hx

theorem hasEntry_live (C : ClassType) (s : State) (h : HasEntry C s) :
    C.getStaticClassData.ptr ≠ 0 ∧ ∃ d, s.statics.lookup C.getStaticClassData.ptr = some d := by
  have hx := hasEntry_not_expired C s h
  simp only [WeakPtr.Expired, Bool.or_eq_false_iff, beq_eq_false_iff_ne, ne_eq] at hx
  refine ⟨hx.1, ?_⟩
  cases hd : s.statics.lookup C.getStaticClassData.ptr with
  | none => simp [hd] at hx
  | some d => exact ⟨d, rfl⟩

/-- Lines 179-204 on an instance that passes the check of `sq_getinstanceup`. -/
theorem validate_instance (cfg : Config) (C : ClassType) (idx : SQInteger) (nullAllowed : Bool)
    (s : State) (r : Nat) (i : SQInstance) (hreg : HasEntry C s)
    (hv : stack_get idx s = .ok (.inst r, s)) (hi : s.instances.lookup r = some i)
    (hval : cfg.SCRAT_NO_ERROR_CHECKING = false → i._class.hasTypeTag C.getStaticClassData.ptr = true) :
    GetInstance.validate cfg C idx nullAllowed s =
      .ok (some (C.getStaticClassData.ptr, some i._userpointer), s) := by
  have hx := hasEntry_not_expired C s hreg
  have h0 := (hasEntry_live C s hreg).1
  cases hc : cfg.SCRAT_NO_ERROR_CHECKING with
  | false =>
    have := hval hc
    cases nullAllowed <;>
      simp [GetInstance.validate, hasClassData_hasEntry cfg C s hreg, sq_gettype, hv,
        HSQOBJECT._type, WeakPtr.LockGet, hx, hc, sq_getinstanceup, resolve, hi, h0, this,
        SQ_FAILED, SQ_OK]
  | true =>
    cases nullAllowed <;>
      simp [GetInstance.validate, hasClassData_hasEntry cfg C s hreg, sq_gettype, hv,
        HSQOBJECT._type, WeakPtr.LockGet, hx, hc, sq_getinstanceup, resolve, hi]

/-- The result of `GetInstance` on an instance that passes validation and whose actual type
resolves within the iteration bound. -/
theorem GetInstance_instance (cfg : Config) (C : ClassType) (fuel : Nat) (idx : SQInteger)
    (nullAllowed : Bool) (s : State) (r : Nat) (i : SQInstance) (k : Nat) (a : SQUserPointer)
    (pair : InstancePair) (hreg : HasEntry C s)
    (hv : stack_get idx s = .ok (.inst r, s)) (hi : s.instances.lookup r = some i)
    (hval : cfg.SCRAT_NO_ERROR_CHECKING = false → i._class.hasTypeTag C.getStaticClassData.ptr = true)
    (hres : i._class.resolvedTag = some (k, a)) (hk : k ≤ fuel)
    (hup : i._userpointer ≠ 0) (hpair : s.pairs.lookup i._userpointer = some pair) :
    GetInstance cfg C fuel idx nullAllowed s =
      if C.getStaticClassData.ptr ≠ a then
        match Cast s.statics fuel a pair.first C.getStaticClassData.ptr with
        | .ok p => .ok (p, s)
        | .error e => .error e
      else .ok (pair.first, s) := by
  simp only [GetInstance, VM.bind_apply, validate_instance cfg C idx nullAllowed s r i hreg hv hi hval,
    actualType_instance fuel idx s r i hv hi, hres, hk, if_true, getState_apply, readVar,
    VM.pure_apply, deref, hup, if_false, hpair]
  by_cases hca : C.getStaticClassData.ptr = a
  · simp [hca]
  · simp only [ne_eq, hca, not_false_eq_true, if_true]
    cases hcast : Cast s.statics fuel a pair.first C.getStaticClassData.ptr with
    | error e => simp
    | ok p => simp

theorem Cast_reaches (statics : Heap AbstractStaticClassData) (t : SQUserPointer) :
    ∀ (k : Nat) (d p : SQUserPointer), reaches statics k d t = true →
      ∀ fuel, (k < fuel → Cast statics fuel d p t = .ok (upcasts statics k d p)) ∧
        (fuel ≤ k → Cast statics fuel d p t = .error .outOfFuel) := by
  intro k
  induction k with
  | zero =>
    intro d p h fuel
    simp only [reaches, Bool.and_eq_true, decide_eq_true_eq] at h
    obtain ⟨⟨hdt, hd0⟩, hl⟩ := h
    cases hd : statics.lookup d with
    | none => simp [hd] at hl
    | some self =>
      refine ⟨fun hf => ?_, fun hf => ?_⟩
      · obtain ⟨n, rfl⟩ : ∃ n, fuel = n + 1 := ⟨fuel - 1, by omega⟩
        subst hdt
        simp [Cast, hd0, hd, upcasts]
      · have : fuel = 0 := by omega
        subst this
        simp [Cast]
  | succ k ih =>
    intro d p h fuel
    simp only [reaches, Bool.and_eq_true, decide_eq_true_eq] at h
    obtain ⟨⟨hdt, hd0⟩, hl⟩ := h
    cases hd : statics.lookup d with
    | none => simp [hd] at hl
    | some self =>
      simp only [hd] at hl
      have ih' := ih self.baseClass (self.upcast p) hl
      cases fuel with
      | zero => exact ⟨fun hf => by omega, fun _ => by simp [Cast]⟩
      | succ n =>
        have hne : t ≠ d := fun e => hdt e.symm
        have hstep : Cast statics (n + 1) d p t = Cast statics n self.baseClass (self.upcast p) t := by
          simp [Cast, hd0, hd, hne]
        rw [hstep]
        refine ⟨fun hf => ?_, fun hf => ?_⟩
        · rw [(ih' n).1 (by omega)]
          simp [upcasts, hd]
        · exact (ih' n).2 (by omega)

theorem InstanceMap.find_cons_ne (m : InstanceMap) (k q : SQUserPointer) (o : HSQOBJECT)
    (h : k ≠ q) : InstanceMap.find ((q, o) :: m) k = InstanceMap.find m k := by
  have : (k == q) = false := by simpa using h
  simp [InstanceMap.find, List.lookup, this]

theorem InstanceMap.find_cons_self (m : InstanceMap) (k : SQUserPointer) (o : HSQOBJECT) :
    InstanceMap.find ((k, o) :: m) k = some o := by
  simp [InstanceMap.find, List.lookup]

theorem InstanceMap.erase_cons_self (m : InstanceMap) (k : SQUserPointer) (o : HSQOBJECT) :
    InstanceMap.erase ((k, o) :: m) k = InstanceMap.erase m k := by
  unfold InstanceMap.erase
  rw [List.filter_cons_of_neg]
  simp

theorem InstanceMap.erase_cons_ne (m : InstanceMap) (k q : SQUserPointer) (o : HSQOBJECT)
    (h : q ≠ k) : InstanceMap.erase ((q, o) :: m) k = (q, o) :: InstanceMap.erase m k := by
  unfold InstanceMap.erase
  rw [List.filter_cons_of_pos]
  simpa using h

theorem InstanceMap.find_erase_self (m : InstanceMap) (k : SQUserPointer) :
    (m.erase k).find k = none := by
  induction m with
  | nil => rfl
  | cons e m ih =>
    obtain ⟨q, o⟩ := e
    by_cases hq : q = k
    · subst hq; rw [InstanceMap.erase_cons_self]; exact ih
    · rw [InstanceMap.erase_cons_ne m k q o hq,
        InstanceMap.find_cons_ne _ k q o (fun e => hq e.symm)]
      exact ih

theorem InstanceMap.find_erase_ne (m : InstanceMap) (k q : SQUserPointer) (hne : q ≠ k) :
    (m.erase k).find q = m.find q := by
  induction m with
  | nil => rfl
  | cons e m ih =>
    obtain ⟨a, o⟩ := e
    by_cases ha : a = k
    · subst ha
      rw [InstanceMap.erase_cons_self, InstanceMap.find_cons_ne m q a o hne]
      exact ih
    · rw [InstanceMap.erase_cons_ne m k a o ha]
      by_cases hqa : q = a
      · subst hqa; rw [InstanceMap.find_cons_self, InstanceMap.find_cons_self]
      · rw [InstanceMap.find_cons_ne _ q a o hqa, InstanceMap.find_cons_ne _ q a o hqa]
        exact ih

theorem hasTypeTag_self (c : SQClass) : c.hasTypeTag c._typetag = true := by
  cases c <;> simp [SQClass.hasTypeTag, SQClass._typetag]

theorem ancestor_succ_derived (n i tg : Nat) (b : SQClass) :
    SQClass.ancestor (n + 1) (.derived i tg b) = SQClass.ancestor n b := by
  simp [SQClass.ancestor, SQClass._base]

theorem nearestTagged_of_ancestor (c : SQClass) :
    ∀ (k : Nat) (b : SQClass), 1 ≤ k → c.ancestor k = some b → b._typetag ≠ 0 →
      (∀ j a, 1 ≤ j → j < k → c.ancestor j = some a → a._typetag = 0) →
      c.nearestTagged = some (k, b._typetag) := by
  induction c with
  | root i tg =>
    intro k b hk ha
    obtain ⟨n, rfl⟩ : ∃ n, k = n + 1 := ⟨k - 1, by omega⟩
    simp [SQClass.ancestor, SQClass._base] at ha
  | derived i tg b0 ih =>
    intro k b hk ha hb hbelow
    obtain ⟨n, rfl⟩ : ∃ n, k = n + 1 := ⟨k - 1, by omega⟩
    rw [ancestor_succ_derived] at ha
    cases n with
    | zero =>
      simp only [SQClass.ancestor, Option.some.injEq] at ha
      subst ha
      simp [SQClass.nearestTagged, hb]
    | succ m =>
      have hb0 : b0._typetag = 0 :=
        hbelow 1 b0 (le_refl _) (by omega) (by simp [SQClass.ancestor, SQClass._base])
      have := ih (m + 1) b (by omega) ha hb (fun j a hj hjk hja =>
        hbelow (j + 1) a (by omega) (by omega) (by rw [ancestor_succ_derived]; exact hja))
      simp [SQClass.nearestTagged, hb0, this]

theorem nearestTagged_none_of_untagged (c : SQClass) :
    (∀ j a, 1 ≤ j → c.ancestor j = some a → a._typetag = 0) → c.nearestTagged = none := by
  induction c with
  | root i tg => intro _; rfl
  | derived i tg b0 ih =>
    intro h
    have hb0 : b0._typetag = 0 :=
      h 1 b0 (le_refl _) (by simp [SQClass.ancestor, SQClass._base])
    have := ih (fun j a hj hja =>
      h (j + 1) a (by omega) (by rw [ancestor_succ_derived]; exact hja))
    simp [SQClass.nearestTagged, hb0, this]

/-- After `PushInstance` of a non-null pointer, in either branch, the top of the stack is a
live instance of the class object whose pairing holds the pointer; registry and descriptors
stay. -/
theorem PushInstance_proxy (cfg : Config) (C : ClassType) (s : State) (ptr cd : SQUserPointer)
    (cdv : ClassData) (k : SQClass) (hp : ptr ≠ 0) (hreg : Registered C s cd cdv k)
    (hmap : ProxiesOK s cdv.instances k) :
    ∃ s1 r i pr, PushInstance cfg C ptr s = .ok ((), s1) ∧ s1._stack = .inst r :: s._stack ∧
      s1.instances.lookup r = some i ∧ i._class = k ∧ i._userpointer ≠ 0 ∧
      s1.pairs.lookup i._userpointer = some pr ∧ pr.first = ptr ∧
      s1.statics = s.statics ∧ s1.errors = s.errors ∧
      (∀ X, registryEntry X s1 = registryEntry X s) := by
  obtain ⟨hr, h0, hcd, hk⟩ := hreg
  cases hf : cdv.instances.find ptr with
  | some o =>
    obtain ⟨r, i, pr, ho, hi, hc, hu, hpl, hfirst⟩ := hmap ptr o hf
    subst ho
    exact ⟨_, r, i, pr, PushInstance_found cfg C s ptr cd cdv _ hp hr h0 hcd hf, rfl, hi, hc, hu,
      hpl, hfirst, rfl, rfl, fun _ => rfl⟩
  | none =>
    refine ⟨_, s.nextInstance,
      { _class := k, _userpointer := s.nextPair + 1, _hook := some .instance_cleanup_hook },
      { first := ptr, second := cd },
      PushInstance_create cfg C s ptr cd cdv k hp hr h0 hcd hf hk, rfl, ?_, rfl, ?_, ?_, rfl, rfl,
      rfl, fun _ => rfl⟩
    · simp [State.withProxy, List.lookup]
    · simp
    · simp [State.withProxy, List.lookup]

/-! ## The properties -/

/-- C9 (null push). For every build, class and VM state, `PushInstance(vm, NULL)` pushes exactly
one value, the VM null value, and changes nothing else: the result state is the input state
with `null` on top of the stack, so every instances map is as before. No registration of
the class is assumed, the registry is not consulted. -/
theorem C9_push_null (cfg : Config) (C : ClassType) (s : State) :
    PushInstance cfg C 0 s = .ok ((), { s with _stack := .null :: s._stack }) := by
  simp [PushInstance, sq_pushnull]

/-- C3 (`StaticClassData::Cast` follows the base chain). For a live descriptor `d` with data
`self`: when the target `t` is `d`, `Cast` returns the pointer unchanged; otherwise it is the
`Cast` of the base descriptor on the upcast pointer. Hence, when `t` is reached from `d` by
`k` `baseClass` steps, the call returns the pointer after the `k` upcasts from `d` upwards,
using exactly `k` nested calls: any bound above `k` suffices and a bound of `k` or less does
not; the result is a value, so no null `baseClass` is dereferenced. -/
theorem C3_cast_follows_base_chain (statics : Heap AbstractStaticClassData)
    (d p t : SQUserPointer) (self : AbstractStaticClassData) (k : Nat)
    (hd0 : d ≠ 0) (hd : statics.lookup d = some self) :
    (∀ fuel, t = d → Cast statics (fuel + 1) d p t = .ok p) ∧
    (∀ fuel, t ≠ d →
      Cast statics (fuel + 1) d p t = Cast statics fuel self.baseClass (self.upcast p) t) ∧
    (reaches statics k d t = true →
      (∀ fuel, k < fuel → Cast statics fuel d p t = .ok (upcasts statics k d p)) ∧
      (∀ fuel, fuel ≤ k → Cast statics fuel d p t = .error .outOfFuel)) := by
  refine ⟨fun fuel h => ?_, fun fuel h => ?_, fun h => ⟨fun fuel hf => ?_, fun fuel hf => ?_⟩⟩
  · subst h; simp [Cast, hd0, hd]
  · simp [Cast, hd0, hd, h]
  · exact (Cast_reaches statics t k d p h fuel).1 hf
  · exact (Cast_reaches statics t k d p h fuel).2 hf

theorem C3_cast_follows_base_chain_witness :
    Cast zoo.statics 1 10 1000 10 = .ok 1000 ∧
    Cast zoo.statics 3 30 1000 10 = Cast zoo.statics 2 20 (upcastBy 16 1000) 10 ∧
    Cast zoo.statics 3 30 1000 10 = .ok 1024 ∧
    Cast zoo.statics 2 30 1000 10 = .error .outOfFuel :=
  ⟨(C3_cast_follows_base_chain zoo.statics 10 1000 10
      { baseClass := 0, className := "Animal", copyFunc := 0, upcast := id } 0
      (by decide) rfl).1 0 rfl,
   (C3_cast_follows_base_chain zoo.statics 30 1000 10
      { baseClass := 20, className := "Puppy", copyFunc := 0, upcast := upcastBy 16 } 2
      (by decide) rfl).2.1 2 (by decide),
   ((C3_cast_follows_base_chain zoo.statics 30 1000 10
      { baseClass := 20, className := "Puppy", copyFunc := 0, upcast := upcastBy 16 } 2
      (by decide) rfl).2.2 rfl).1 3 (by decide),
   ((C3_cast_follows_base_chain zoo.statics 30 1000 10
      { baseClass := 20, className := "Puppy", copyFunc := 0, upcast := upcastBy 16 } 2
      (by decide) rfl).2.2 rfl).2 2 (by decide)⟩

/-- C8 (unregistered class). When the expected class has no registry entry in the VM (its
descriptor has expired, or the registry has no `"__classes"` entry, or that has nothing under
the class name), then for every stack index, whatever lies there, and every `nullAllowed`,
`GetInstance` returns `NULL`; with error checking it raises exactly the type error formatted
from the index and `"unknown"`, without error checking it raises nothing and leaves the state
as it is. The result is computed without any read of the stack slot or of an instance. -/
theorem C8_unregistered_class (cfg : Config) (C : ClassType) (fuel : Nat) (idx : SQInteger)
    (nullAllowed : Bool) (s : State) (hno : NoEntry C s) :
    GetInstance cfg C fuel idx nullAllowed s =
      .ok (0, if cfg.SCRAT_NO_ERROR_CHECKING then s
        else { s with errors := s.errors ++ [cfg.FormatTypeError s idx "unknown"] }) := by
  cases hc : cfg.SCRAT_NO_ERROR_CHECKING <;>
    simp [GetInstance, GetInstance.validate, hasClassData_noEntry cfg C s hno, hc, Error.Throw]

theorem C8_unregistered_class_witness :
    GetInstance checked Cat 0 (-1) true zooWithDog =
      .ok (0, if checked.SCRAT_NO_ERROR_CHECKING then zooWithDog
        else { zooWithDog with
          errors := zooWithDog.errors ++ [checked.FormatTypeError zooWithDog (-1) "unknown"] }) :=
  C8_unregistered_class checked Cat 0 (-1) true zooWithDog rfl

/-- C7 (type mismatch, error checking enabled). In a VM where the expected class `C` is
registered, with `d` its descriptor, let `o` be the value at `idx`, and let it fail the check
against the type token of `C`: it is no instance, or it is an instance none of whose classes
carries the token; the null value with `nullAllowed = true` is set aside. Then `GetInstance`
returns `NULL` and raises exactly one error, the message formatted from `idx` and the class
name of `C`; nothing else changes, so neither the walk of lines 205-215 nor the cast has run,
whatever the iteration bound. -/
theorem C7_type_mismatch (cfg : Config) (C : ClassType) (fuel : Nat) (idx : SQInteger)
    (nullAllowed : Bool) (s : State) (o : HSQOBJECT) (d : AbstractStaticClassData)
    (hchk : cfg.SCRAT_NO_ERROR_CHECKING = false)
    (hreg : HasEntry C s)
    (hd : s.statics.lookup C.getStaticClassData.ptr = some d)
    (hv : stack_get idx s = .ok (o, s))
    (hfail : ∀ r, o = .inst r →
      ∃ i, s.instances.lookup r = some i ∧ i._class.hasTypeTag C.getStaticClassData.ptr = false)
    (hnull : ¬ (nullAllowed = true ∧ o = .null)) :
    GetInstance cfg C fuel idx nullAllowed s =
      .ok (0, { s with errors := s.errors ++ [cfg.FormatTypeError s idx d.className] }) := by
  have hx := hasEntry_not_expired C s hreg
  have h0 := (hasEntry_live C s hreg).1
  have hcn := ClassName_live cfg C s d h0 hd
  cases o with
  | inst r =>
    obtain ⟨i, hi, ht⟩ := hfail r rfl
    cases nullAllowed <;>
      simp [GetInstance, GetInstance.validate, hasClassData_hasEntry cfg C s hreg, sq_gettype,
        HSQOBJECT._type, WeakPtr.LockGet, hx, hchk, sq_getinstanceup, hv, resolve, hi, h0, ht,
        SQ_FAILED, SQ_ERROR, hcn, Error.Throw]
  | null =>
    cases nullAllowed with
    | true => simp at hnull
    | false =>
      simp [GetInstance, GetInstance.validate, hasClassData_hasEntry cfg C s hreg,
        WeakPtr.LockGet, hx, hchk, sq_getinstanceup, hv, SQ_FAILED, SQ_ERROR, hcn, Error.Throw]
  | _ =>
    cases nullAllowed <;>
      simp [GetInstance, GetInstance.validate, hasClassData_hasEntry cfg C s hreg, sq_gettype,
        HSQOBJECT._type, WeakPtr.LockGet, hx, hchk, sq_getinstanceup, hv, SQ_FAILED, SQ_ERROR, hcn,
        Error.Throw]

theorem C7_type_mismatch_witness :
    GetInstance checked Puppy 0 (-1) false zooWithDog =
      .ok (0, { zooWithDog with
        errors := zooWithDog.errors ++ [checked.FormatTypeError zooWithDog (-1) "Puppy"] }) :=
  C7_type_mismatch checked Puppy 0 (-1) false zooWithDog (.inst 1)
    { baseClass := 20, className := "Puppy", copyFunc := 0, upcast := upcastBy 16 }
    rfl ⟨_, rfl⟩ rfl rfl
    (fun r h => ⟨{ _class := dogClass, _userpointer := 1, _hook := some .instance_cleanup_hook },
      by cases h; exact ⟨rfl, rfl⟩⟩)
    (by decide)

/-- C6, the claim as stated fails: in the VM `zooWithNull` the value at index -1 is the null
value, `Cat` is not registered, and `GetInstance(vm, -1, nullAllowed = true)` built with error
checking raises a type error (it still returns `NULL`). -/
theorem C6_null_allowed_counterexample :
    stack_get (-1) zooWithNull = .ok (.null, zooWithNull) ∧
    zooWithNull.errors = [] ∧
    GetInstance checked Cat 0 (-1) true zooWithNull =
      .ok (0, { zooWithNull with errors := ["wrong type (unknown expected)"] }) :=
  ⟨rfl, rfl, rfl⟩

/-- C6 as amended. For every VM state in which the expected class has a registry entry, or
with a build without error checking, and every stack index whose value is the null value,
`GetInstance(vm, idx, nullAllowed = true)` returns `NULL`, raises no error and leaves the
state as it is. -/
theorem C6_null_allowed (cfg : Config) (C : ClassType) (fuel : Nat) (idx : SQInteger)
    (s : State) (hv : stack_get idx s = .ok (.null, s))
    (hreg : HasEntry C s ∨ (NoEntry C s ∧ cfg.SCRAT_NO_ERROR_CHECKING = true)) :
    GetInstance cfg C fuel idx true s = .ok (0, s) := by
  rcases hreg with hreg | ⟨hno, hc⟩
  · simp [GetInstance, GetInstance.validate, hasClassData_hasEntry cfg C s hreg, sq_gettype, hv,
      HSQOBJECT._type]
  · simp [GetInstance, GetInstance.validate, hasClassData_noEntry cfg C s hno, hc]

theorem C6_null_allowed_witness :
    GetInstance checked Dog 0 (-1) true zooWithNull = .ok (0, zooWithNull) :=
  C6_null_allowed checked Dog 0 (-1) zooWithNull rfl (Or.inl ⟨_, rfl⟩)

/-- C4, the claim as stated fails: in `zooWithDog` the value at index -1 is a `Dog` proxy for
the pointer 1000 and `Animal` is expected. `GetInstance` returns 1008, the pointer upcast by the
`Dog` descriptor (address 20). The cast of the expected descriptor (`Animal`, address 10)
applied to the stored pointer never yields that: for the target `Animal` it returns 1000
unchanged, for every other target it runs into the null `baseClass` of `Animal`. -/
theorem C4_cast_dispatch_counterexample :
    GetInstance checked Animal 2 (-1) false zooWithDog = .ok (1008, zooWithDog) ∧
    ∀ fuel t, Cast zooWithDog.statics fuel 10 1000 t ≠ .ok 1008 := by
  refine ⟨rfl, fun fuel t => ?_⟩
  cases fuel with
  | zero => simp [Cast]
  | succ n =>
    by_cases ht : t = 10
    · subst ht
      simp [Cast, zooWithDog, zoo, List.lookup]
    · cases n with
      | zero => simp [Cast, zooWithDog, zoo, List.lookup, ht]
      | succ m => simp [Cast, zooWithDog, zoo, List.lookup, ht]

/-- C4 as amended. Let the value at `idx` be an instance that passes validation against the
expected class `C`, let `a` be its actual type token (the tag of its class, or of the nearest
tagged ancestor, resolved within the bound) and `pair` its pairing. If `a` differs from the
token of `C`, `GetInstance` returns what the cast of the actual descriptor `a` makes of the
stored pointer for the target `C`; if the tokens are equal it returns the stored pointer
unchanged. The state is left as it is. -/
theorem C4_cast_dispatch (cfg : Config) (C : ClassType) (fuel : Nat) (idx : SQInteger)
    (nullAllowed : Bool) (s : State) (r : Nat) (i : SQInstance) (k : Nat) (a : SQUserPointer)
    (pair : InstancePair) (hreg : HasEntry C s)
    (hv : stack_get idx s = .ok (.inst r, s)) (hi : s.instances.lookup r = some i)
    (hval : cfg.SCRAT_NO_ERROR_CHECKING = false → i._class.hasTypeTag C.getStaticClassData.ptr = true)
    (hres : i._class.resolvedTag = some (k, a)) (hk : k ≤ fuel)
    (hup : i._userpointer ≠ 0) (hpair : s.pairs.lookup i._userpointer = some pair) :
    (C.getStaticClassData.ptr ≠ a →
      GetInstance cfg C fuel idx nullAllowed s =
        match Cast s.statics fuel a pair.first C.getStaticClassData.ptr with
        | .ok p => .ok (p, s)
        | .error e => .error e) ∧
    (C.getStaticClassData.ptr = a →
      GetInstance cfg C fuel idx nullAllowed s = .ok (pair.first, s)) := by
  have h := GetInstance_instance cfg C fuel idx nullAllowed s r i k a pair hreg hv hi hval hres hk
    hup hpair
  refine ⟨fun hne => ?_, fun he => ?_⟩
  · rw [h, if_pos hne]
  · rw [h, if_neg (not_not.mpr he)]

theorem C4_cast_dispatch_witness :
    GetInstance checked Animal 2 (-1) false zooWithDog = .ok (1008, zooWithDog) ∧
    GetInstance checked Dog 2 (-1) false zooWithDog = .ok (1000, zooWithDog) :=
  ⟨(C4_cast_dispatch checked Animal 2 (-1) false zooWithDog 1
      { _class := dogClass, _userpointer := 1, _hook := some .instance_cleanup_hook } 0 20
      { first := 1000, second := 200 } ⟨_, rfl⟩ (by rfl) rfl (fun _ => rfl) rfl (by decide) (by decide)
      rfl).1 (by decide),
   (C4_cast_dispatch checked Dog 2 (-1) false zooWithDog 1
      { _class := dogClass, _userpointer := 1, _hook := some .instance_cleanup_hook } 0 20
      { first := 1000, second := 200 } ⟨_, rfl⟩ (by rfl) rfl (fun _ => rfl) rfl (by decide) (by decide)
      rfl).2 rfl⟩

/-- C2 (cast correctness after a push). Let `B <- D <- M` be a single-inheritance chain whose
three classes are registered in the VM: the descriptor of `M` has the one of `D` as base class,
that one the descriptor of `B`, and the class object of `M` is a Squirrel class tagged with the
descriptor of `M` whose base is tagged with that of `D`, whose base in turn is tagged with that
of `B`. For every non-null pointer `p`, `PushInstance<M>(p)` succeeds, and on the value it
pushed `GetInstance<B>` returns the `M`-to-`D` upcast followed by the `D`-to-`B` upcast of `p`,
`GetInstance<D>` the `M`-to-`D` upcast of `p`, and `GetInstance<M>` the pointer `p` itself; each
leaves the state, the list of raised errors included, as it is. -/
theorem C2_cast_after_push (cfg : Config) (B D M : ClassType) (s : State)
    (dD dM : AbstractStaticClassData) (cd : SQUserPointer) (cdv : ClassData) (kB : SQClass)
    (iD iM : Nat) (p : SQUserPointer) (fuel : Nat) (nullAllowed : Bool)
    (hp : p ≠ 0)
    (hB : HasEntry B s) (hD : HasEntry D s)
    (hM : Registered M s cd cdv
      (.derived iM M.getStaticClassData.ptr (.derived iD D.getStaticClassData.ptr kB)))
    (htB : kB._typetag = B.getStaticClassData.ptr)
    (hdM : s.statics.lookup M.getStaticClassData.ptr = some dM)
    (hbM : dM.baseClass = D.getStaticClassData.ptr)
    (hdD : s.statics.lookup D.getStaticClassData.ptr = some dD)
    (hbD : dD.baseClass = B.getStaticClassData.ptr)
    (hBD : B.getStaticClassData.ptr ≠ D.getStaticClassData.ptr)
    (hDM : D.getStaticClassData.ptr ≠ M.getStaticClassData.ptr)
    (hBM : B.getStaticClassData.ptr ≠ M.getStaticClassData.ptr)
    (hmap : ProxiesOK s cdv.instances
      (.derived iM M.getStaticClassData.ptr (.derived iD D.getStaticClassData.ptr kB)))
    (hfuel : 3 ≤ fuel) :
    ∃ s1 o, PushInstance cfg M p s = .ok ((), s1) ∧ s1._stack = o :: s._stack ∧
      s1.errors = s.errors ∧
      GetInstance cfg B fuel (-1) nullAllowed s1 = .ok (dD.upcast (dM.upcast p), s1) ∧
      GetInstance cfg D fuel (-1) nullAllowed s1 = .ok (dM.upcast p, s1) ∧
      GetInstance cfg M fuel (-1) nullAllowed s1 = .ok (p, s1) := by
  obtain ⟨s1, r, i, pr, hpush, hstk, hi, hc, hu, hpl, hfirst, hst, herr, hre⟩ :=
    PushInstance_proxy cfg M s p cd cdv _ hp hM hmap
  have hM' : HasEntry M s := registered?_hasEntry M s cd hM.1
  have hM0 := (hasEntry_live M s hM').1
  have hD0 := (hasEntry_live D s hD).1
  obtain ⟨hB0, dB, hdB⟩ := hasEntry_live B s hB
  have hent : ∀ X, HasEntry X s → HasEntry X s1 := by
    intro X ⟨e, he⟩
    exact ⟨e, by rw [hre X]; exact he⟩
  have hv : stack_get (-1) s1 = .ok (.inst r, s1) := by
    rw [stack_get_neg_one, hstk]
  have hres : i._class.resolvedTag = some (0, M.getStaticClassData.ptr) := by
    rw [hc]; simp [SQClass.resolvedTag, SQClass._typetag, hM0]
  have hget := fun (X : ClassType) (hX : HasEntry X s)
      (hval : i._class.hasTypeTag X.getStaticClassData.ptr = true) =>
    GetInstance_instance cfg X fuel (-1) nullAllowed s1 r i 0 M.getStaticClassData.ptr pr
      (hent X hX) hv hi (fun _ => hval) hres (Nat.zero_le _) hu hpl
  obtain ⟨n, rfl⟩ : ∃ n, fuel = n + 3 := ⟨fuel - 3, by omega⟩
  refine ⟨s1, .inst r, hpush, hstk, herr, ?_, ?_, ?_⟩
  · rw [hget B hB (by rw [hc]; simp [SQClass.hasTypeTag, ← htB, hasTypeTag_self])]
    rw [hst, hfirst]
    simp [hBM, Cast, hM0, hdM, hbM, hD0, hdD, hbD, hBD, hB0, hdB]
  · rw [hget D hD (by rw [hc]; simp [SQClass.hasTypeTag])]
    rw [hst, hfirst]
    simp [hDM, Cast, hM0, hdM, hbM, hD0, hdD]
  · rw [hget M hM' (by rw [hc]; simp [SQClass.hasTypeTag])]
    simp [hfirst]

theorem C2_cast_after_push_witness :
    ∃ s1 o, PushInstance checked Puppy 1000 zoo = .ok ((), s1) ∧ s1._stack = o :: zoo._stack ∧
      s1.errors = zoo.errors ∧
      GetInstance checked Animal 3 (-1) false s1 = .ok (upcastBy 8 (upcastBy 16 1000), s1) ∧
      GetInstance checked Dog 3 (-1) false s1 = .ok (upcastBy 16 1000, s1) ∧
      GetInstance checked Puppy 3 (-1) false s1 = .ok (1000, s1) :=
  C2_cast_after_push checked Animal Dog Puppy zoo
    { baseClass := 10, className := "Dog", copyFunc := 0, upcast := upcastBy 8 }
    { baseClass := 20, className := "Puppy", copyFunc := 0, upcast := upcastBy 16 }
    300 puppyData animalClass 2 3 1000 3 false (by decide) ⟨_, rfl⟩ ⟨_, rfl⟩
    ⟨rfl, by decide, rfl, rfl⟩ rfl rfl rfl rfl rfl (by decide) (by decide) (by decide)
    (fun q o h => by simp [puppyData, InstanceMap.find] at h) (by decide)

/-- C10 (type-token resolution walk). Let the value at `idx` be an instance whose class carries
no type tag. If the ancestor `b` at distance `k >= 1` carries a tag and no nearer proper
ancestor does, lines 205-215 resolve the actual type to the tag of `b` after exactly `k`
iterations of the loop (a bound of `k` or more suffices, a smaller one is exhausted) and put the
stack, indeed the whole state, back as it was. If no proper ancestor carries a tag, the loop
has not finished after `n` iterations, for every `n`. -/
theorem C10_type_token_walk (idx : SQInteger) (s : State) (r : Nat) (i : SQInstance)
    (hv : stack_get idx s = .ok (.inst r, s)) (hi : s.instances.lookup r = some i)
    (hown : i._class._typetag = 0) :
    (∀ k b, 1 ≤ k → i._class.ancestor k = some b → b._typetag ≠ 0 →
      (∀ j a, 1 ≤ j → j < k → i._class.ancestor j = some a → a._typetag = 0) →
      (∀ fuel, k ≤ fuel → GetInstance.actualType fuel idx s = .ok (b._typetag, s)) ∧
      (∀ fuel, fuel < k → GetInstance.actualType fuel idx s = .error .outOfFuel)) ∧
    ((∀ j a, 1 ≤ j → i._class.ancestor j = some a → a._typetag = 0) →
      ∀ n, GetInstance.actualType n idx s = .error .outOfFuel) := by
  have hres : i._class.resolvedTag = i._class.nearestTagged := by
    simp [SQClass.resolvedTag, hown]
  refine ⟨fun k b hk ha hb hbelow => ?_, fun hnone n => ?_⟩
  · have hn := nearestTagged_of_ancestor i._class k b hk ha hb hbelow
    refine ⟨fun fuel hf => ?_, fun fuel hf => ?_⟩
    · rw [actualType_instance fuel idx s r i hv hi, hres, hn]
      simp [hf]
    · rw [actualType_instance fuel idx s r i hv hi, hres, hn]
      simp [Nat.not_le.mpr hf]
  · have hn := nearestTagged_none_of_untagged i._class hnone
    rw [actualType_instance n idx s r i hv hi, hres, hn]

theorem C10_type_token_walk_witness :
    GetInstance.actualType 1 (-1) zooWithScripted = .ok (20, zooWithScripted) ∧
    GetInstance.actualType 0 (-1) zooWithScripted = .error .outOfFuel ∧
    GetInstance.actualType 100 (-2) zooWithScripted = .error .outOfFuel :=
  ⟨((C10_type_token_walk (-1) zooWithScripted 1
      { _class := huskyClass, _userpointer := 1, _hook := none } (by rfl) rfl rfl).1
      1 dogClass (by decide) rfl (by decide) (fun j a h1 h2 => by omega)).1 1 (by decide),
   ((C10_type_token_walk (-1) zooWithScripted 1
      { _class := huskyClass, _userpointer := 1, _hook := none } (by rfl) rfl rfl).1
      1 dogClass (by decide) rfl (by decide) (fun j a h1 h2 => by omega)).2 0 (by decide),
   (C10_type_token_walk (-2) zooWithScripted 2
      { _class := plainClass, _userpointer := 0, _hook := none } (by rfl) rfl rfl).2
      (fun j a h1 ha => by
        match j, ha with
        | 1, ha => cases ha; rfl
        | (n + 2), ha => simp [plainClass, SQClass.ancestor, SQClass._base] at ha) 100⟩

end Sqrat
